import Mathlib

/-!
Shallow embedding of the Bozorli backend order/inventory/payment core.

The definitions below are translated from the JavaScript source:
  * Order model and state machine  — src/unnamed/part_011 (Order.prototype.canTransitionTo,
    Order.prototype.transitionTo, the `orders` table attributes);
  * Product stock methods          — src/unnamed/part_010 (getAvailableQuantity, canReserve,
    reserve, releaseReservation);
  * Order routes                   — src/unnamed/part_006 (POST /api/v1/orders,
    POST /api/v1/orders/:orderId/cancel);
  * Payment model and webhook      — src/src/models/Payment.js and src/unnamed/part_003
    (POST /api/v1/payments/webhook/:provider).

Integer-valued DB columns carry `validate: { min: 0 }` constraints (quantity,
reserved_quantity), so stock counts and reservation amounts are modelled as `Nat`;
`Math.max(0, a - b)` on such values is truncated subtraction.  DECIMAL money columns
are modelled as `Rat`.  Timestamps (`new Date()`) are modelled as an explicit `now : Nat`
argument.  Each HTTP handler becomes a pure function from request plus database state to
response plus database state, executed sequentially (one request at a time), which is the
per-transaction view of the route code.
-/

namespace Bozorli

/-- Order status enum, from the `status` column of the orders table
(src/unnamed/part_011, lines 110-128). -/
inductive Status where
  | created
  | payment_pending
  | confirmed
  | assigning
  | courier_assigned
  | en_route_to_store
  | at_store
  | picking
  | en_route_to_customer
  | delivered
  | completed
  | cancelled
  | refunded
deriving DecidableEq, Repr, Fintype

/-- Payment method enum of the orders table (card / cash / wallet). -/
inductive PaymentMethod where
  | card
  | cash
  | wallet
deriving DecidableEq, Repr

/-- The `paymentStatus` column of the orders table (pending / paid / failed / refunded). -/
inductive OrderPaymentStatus where
  | pending
  | paid
  | failed
  | refunded
deriving DecidableEq, Repr

/-- The `status` column of the payments table
(src/src/models/Payment.js, lines 27-31). -/
inductive PaymentStatus where
  | pending
  | authorized
  | captured
  | failed
  | refunded
deriving DecidableEq, Repr

/-- The `cancelledBy` enum of the orders table (customer / store / courier / admin). -/
inductive CancelActor where
  | customer
  | store
  | courier
  | admin
deriving DecidableEq, Repr

/-- One line of the order's `items` JSON column.  The create-order route stores the
client-sent item objects verbatim (`items.map((i) => ({ ...i }))`,
src/unnamed/part_006 line 2030); the documented request shape carries `productId`,
`qty` and `note`, but since request items are only validated as a non-empty array,
a client may also attach a `quantity` field, which the cancel route reads
(`item.quantity || item.qty || 0`, line 2223).  `quantity` is therefore kept as an
optional field. -/
structure Item where
  productId : Nat
  qty : Nat
  quantity : Option Nat := none
  note : Option String := none
deriving DecidableEq, Repr

/-- Product row: the columns of the products table used by the order routes
(src/unnamed/part_010).  The model declares the reservation counter as the
`reserved_quantity` attribute; the instance methods address the same counter
as `reservedQuantity`, and it is represented here as the single field
`reservedQuantity`. -/
structure Product where
  id : Nat
  storeId : Nat
  price : Rat
  discountPercentage : Rat
  quantity : Nat
  reservedQuantity : Nat
  isActive : Bool
deriving DecidableEq, Repr

/-- Product.prototype.getAvailableQuantity (src/unnamed/part_010, lines 238-240):
`Math.max(0, this.quantity - this.reserved_quantity)`, i.e. truncated subtraction. -/
def Product.getAvailableQuantity (p : Product) : Nat :=
  p.quantity - p.reservedQuantity

/-- Product.prototype.canReserve (lines 242-244): `getAvailableQuantity() >= amount`. -/
def Product.canReserve (p : Product) (amount : Nat) : Bool :=
  decide (amount ≤ p.getAvailableQuantity)

/-- Error thrown by Product.prototype.reserve when the availability check fails. -/
inductive StockError where
  | insufficientStock
deriving DecidableEq, Repr

/-- Product.prototype.reserve (lines 246-252): throws unless `canReserve(amount)`,
otherwise increments the reservation counter. -/
def Product.reserve (p : Product) (amount : Nat) : Except StockError Product :=
  if p.canReserve amount then
    .ok { p with reservedQuantity := p.reservedQuantity + amount }
  else
    .error .insufficientStock

/-- Product.prototype.releaseReservation (lines 254-257):
`reservedQuantity = Math.max(0, reservedQuantity - amount)`. -/
def Product.releaseReservation (p : Product) (amount : Nat) : Product :=
  { p with reservedQuantity := p.reservedQuantity - amount }

/-- Product.prototype.getFinalPrice (lines 259-264). -/
def Product.getFinalPrice (p : Product) : Rat :=
  if 0 < p.discountPercentage then p.price * (1 - p.discountPercentage / 100)
  else p.price

/-- Order row: the columns of the orders table touched by the modelled routes
(src/unnamed/part_011). -/
structure Order where
  id : Nat
  userId : Nat
  storeId : Nat
  totalAmount : Rat
  subtotalAmount : Rat
  deliveryFee : Rat
  paymentMethod : PaymentMethod
  status : Status
  deliveryAddress : String
  idempotencyKey : String
  items : List Item
  paymentStatus : OrderPaymentStatus
  confirmedAt : Option Nat := none
  assignedAt : Option Nat := none
  pickedUpAt : Option Nat := none
  deliveredAt : Option Nat := none
  cancelledAt : Option Nat := none
  actualDeliveryTime : Option Nat := none
  cancellationReason : Option String := none
  cancelledBy : Option CancelActor := none
deriving DecidableEq, Repr

/-- The `validTransitions` table of Order.prototype.canTransitionTo
(src/unnamed/part_011, lines 271-285). -/
def validTransitions : Status → List Status
  | .created => [.payment_pending, .cancelled]
  | .payment_pending => [.confirmed, .cancelled]
  | .confirmed => [.assigning, .cancelled]
  | .assigning => [.courier_assigned, .cancelled]
  | .courier_assigned => [.en_route_to_store, .cancelled]
  | .en_route_to_store => [.at_store, .cancelled]
  | .at_store => [.picking, .cancelled]
  | .picking => [.en_route_to_customer, .cancelled]
  | .en_route_to_customer => [.delivered, .cancelled]
  | .delivered => [.completed, .cancelled]
  | .completed => []
  | .cancelled => []
  | .refunded => []

/-- Order.prototype.canTransitionTo (lines 270-288). -/
def Order.canTransitionTo (o : Order) (newStatus : Status) : Bool :=
  (validTransitions o.status).contains newStatus

/-- The error thrown by Order.prototype.transitionTo on an illegal transition. -/
inductive TransitionError where
  | invalidTransition (src tgt : Status)
deriving DecidableEq, Repr

/-- Order.prototype.transitionTo (lines 290-321): rejects an illegal target, otherwise
sets the status, stamps the transition-specific timestamp and saves. -/
def Order.transitionTo (o : Order) (newStatus : Status) (now : Nat) :
    Except TransitionError Order :=
  if o.canTransitionTo newStatus then
    let o1 := { o with status := newStatus }
    let o2 :=
      match newStatus with
      | .confirmed => { o1 with confirmedAt := some now }
      | .courier_assigned => { o1 with assignedAt := some now }
      | .en_route_to_customer => { o1 with pickedUpAt := some now }
      | .delivered => { o1 with deliveredAt := some now, actualDeliveryTime := some now }
      | .cancelled => { o1 with cancelledAt := some now }
      | _ => o1
    .ok o2
  else
    .error (.invalidTransition o.status newStatus)

/-- The transition table as enumerated by the specification, for comparison with
the table in the source (`validTransitions`). -/
def specAllowedPairs : List (Status × Status) :=
  [(.created, .payment_pending), (.created, .cancelled),
   (.payment_pending, .confirmed), (.payment_pending, .cancelled),
   (.confirmed, .assigning), (.confirmed, .cancelled),
   (.assigning, .courier_assigned), (.assigning, .cancelled),
   (.courier_assigned, .en_route_to_store), (.courier_assigned, .cancelled),
   (.en_route_to_store, .at_store), (.en_route_to_store, .cancelled),
   (.at_store, .picking), (.at_store, .cancelled),
   (.picking, .en_route_to_customer), (.picking, .cancelled),
   (.en_route_to_customer, .delivered), (.en_route_to_customer, .cancelled),
   (.delivered, .completed), (.delivered, .cancelled)]

/-- A sample order used to instantiate universally quantified theorems. -/
def sampleOrder : Order :=
  { id := 1, userId := 7, storeId := 3, totalAmount := 100, subtotalAmount := 100,
    deliveryFee := 0, paymentMethod := .card, status := .created,
    deliveryAddress := "addr", idempotencyKey := "key-1",
    items := [{ productId := 1, qty := 2 }], paymentStatus := .pending }

/-- A sample product row used to instantiate universally quantified theorems:
quantity 5, one unit already reserved. -/
def sampleProduct : Product :=
  { id := 1, storeId := 3, price := 10, discountPercentage := 0,
    quantity := 5, reservedQuantity := 1, isActive := true }

/-- Payment row: the columns of the payments table (src/src/models/Payment.js). -/
structure Payment where
  id : Nat
  orderId : Nat
  provider : String
  providerPaymentId : Option String
  amount : Rat
  status : PaymentStatus
  capturedAt : Option Nat := none
deriving DecidableEq, Repr

/-- Store row: the fields of the stores table the order routes read
(`Store.findByPk(storeId)` followed by `store.status !== 'open'`). -/
structure Store where
  id : Nat
  status : String
deriving DecidableEq, Repr

/-- The database state seen by the modelled routes. -/
structure AppState where
  stores : List Store
  products : List Product
  orders : List Order
  payments : List Payment
deriving DecidableEq, Repr

/-- A payment webhook delivery, after the provider-specific field extraction of the
switch at src/unnamed/part_003 lines 233-254: `paymentId` is the extracted local payment
identifier (merchant_trans_id / params.id / payment_id / metadata.payment_id; `none`
models a falsy extraction), `success` tells whether the provider status field maps to
'captured' rather than 'failed', and `transactionId` is the provider transaction id.
`signatureValid` records whether the payload's signature/HMAC is valid for the provider
secret; the handler's verification call is commented out (lines 225-228), so the
handler below never consults this field. -/
structure WebhookRequest where
  paymentId : Option Nat
  success : Bool
  transactionId : String
  signatureValid : Bool
deriving DecidableEq, Repr

/-- POST /api/v1/payments/webhook/:provider (src/unnamed/part_003, lines 218-289):
if a payment matches the extracted id, set its status from the outcome and overwrite
its provider transaction id; on a success outcome additionally stamp `capturedAt` and
set the owning order's `paymentStatus` to paid.  The handler acknowledges with
`{ success: true }` (modelled as the Bool `true`) in every branch. -/
def processWebhook (w : WebhookRequest) (now : Nat) (st : AppState) : Bool × AppState :=
  match w.paymentId with
  | none => (true, st)
  | some pid =>
    match st.payments.find? (fun p => p.id == pid) with
    | none => (true, st)
    | some p =>
      let newStatus : PaymentStatus := if w.success then .captured else .failed
      let p1 : Payment :=
        { p with status := newStatus, providerPaymentId := some w.transactionId }
      if w.success then
        let p2 : Payment := { p1 with capturedAt := some now }
        let orders' := st.orders.map fun o =>
          if o.id == p.orderId then { o with paymentStatus := .paid } else o
        let payments' := st.payments.map fun q => if q.id == p.id then p2 else q
        (true, { st with orders := orders', payments := payments' })
      else
        let payments' := st.payments.map fun q => if q.id == p.id then p1 else q
        (true, { st with payments := payments' })

/-- Forgets the `capturedAt` stamp of a payment. -/
def Payment.eraseCapturedAt (p : Payment) : Payment :=
  { p with capturedAt := none }

/-- Forgets the `capturedAt` stamps of all payments in a state. -/
def AppState.eraseCaptureTimes (st : AppState) : AppState :=
  { st with payments := st.payments.map Payment.eraseCapturedAt }

/-- A pending payment for order 1, used in concrete webhook scenarios. -/
def samplePayment : Payment :=
  { id := 1, orderId := 1, provider := "click", providerPaymentId := none,
    amount := 100, status := .pending }

/-- An order awaiting payment, used in concrete webhook scenarios. -/
def awaitingOrder : Order :=
  { id := 1, userId := 7, storeId := 3, totalAmount := 100, subtotalAmount := 100,
    deliveryFee := 0, paymentMethod := .card, status := .payment_pending,
    deliveryAddress := "addr", idempotencyKey := "key-w1",
    items := [{ productId := 1, qty := 2 }], paymentStatus := .pending }

/-- A success-outcome webhook with a valid signature for payment 1. -/
def captureWebhook : WebhookRequest :=
  { paymentId := some 1, success := true, transactionId := "txn-1",
    signatureValid := true }

/-- A database state with one pending payment for one order awaiting payment. -/
def awaitingState : AppState :=
  { stores := [], products := [], orders := [awaitingOrder],
    payments := [samplePayment] }

/-- An order that was already cancelled, with its payment still pending. -/
def cancelledOrder : Order :=
  { id := 2, userId := 7, storeId := 3, totalAmount := 100, subtotalAmount := 100,
    deliveryFee := 0, paymentMethod := .card, status := .cancelled,
    deliveryAddress := "addr", idempotencyKey := "key-w2",
    items := [{ productId := 1, qty := 2 }], paymentStatus := .pending,
    cancelledAt := some 3, cancelledBy := some .customer }

/-- The pending payment of the cancelled order. -/
def cancelledOrderPayment : Payment :=
  { id := 2, orderId := 2, provider := "payme", providerPaymentId := none,
    amount := 100, status := .pending }

/-- A success-outcome webhook for the cancelled order's payment. -/
def lateCaptureWebhook : WebhookRequest :=
  { paymentId := some 2, success := true, transactionId := "txn-2",
    signatureValid := true }

/-- A database state whose only order is already cancelled. -/
def cancelledState : AppState :=
  { stores := [], products := [], orders := [cancelledOrder],
    payments := [cancelledOrderPayment] }

/-- A success-outcome webhook whose payload signature is invalid for the provider
secret. -/
def forgedWebhook : WebhookRequest :=
  { paymentId := some 1, success := true, transactionId := "txn-forged",
    signatureValid := false }

/-- The create-order request body (POST /api/v1/orders, src/unnamed/part_006
lines 1955-1977). -/
structure CreateOrderRequest where
  userId : Nat
  items : List Item
  storeId : Nat
  deliveryAddress : String
  paymentMethod : PaymentMethod
  idempotencyKey : Option String := none
  customerNotes : Option String := none
  deliveryInstructions : Option String := none
deriving DecidableEq, Repr

/-- The responses of the create-order route: 422 validation failure, 200 idempotent
replay, 400 store / product / stock rejections, 500 on a mid-loop reserve throw,
201 created. -/
inductive CreateResult where
  | validationFailed
  | okExisting (orderId : Nat) (status : Status)
  | storeNotAvailable
  | productsNotAvailable
  | insufficientStock (productId : Nat)
  | serverError
  | created (orderId : Nat) (status : Status)
deriving DecidableEq, Repr

/-- `req.body.idempotency_key || uuidv4()` (line 1977): a missing or empty key falls
back to a server-generated one. -/
def jsOrKey : Option String → String → String
  | some s, fk => if s = "" then fk else s
  | none, fk => fk

/-- One iteration of the availability-check loop (lines 1999-2004): the item's product
is looked up in the fetched array and `canReserve(item.qty)` is evaluated; a missing
product also fails the check. -/
def checkItem (fetched : List Product) (it : Item) : Bool :=
  match fetched.find? (fun p => p.id == it.productId) with
  | some p => p.canReserve it.qty
  | none => false

/-- The availability-check loop returns the first failing item, if any. -/
def firstFailingItem (fetched : List Product) (items : List Item) : Option Item :=
  items.find? (fun it => ! checkItem fetched it)

/-- The effect of `product.reserve(item.qty)` on the row with the item's product id. -/
def bump1 (it : Item) (p : Product) : Product :=
  if p.id == it.productId then
    { p with reservedQuantity := p.reservedQuantity + it.qty }
  else p

/-- Applying one reservation: `product.reserve(item.qty)` saves the incremented
counter on the product row with the item's product id. -/
def reserveStep (ps : List Product) (it : Item) : List Product :=
  ps.map (bump1 it)

/-- The apply loop (lines 2007-2010).  `products.find(...)` aliases the database rows,
so each `reserve` call re-checks availability against the current row value and throws
mid-loop on failure, retaining the reservations applied so far (the route's catch
returns 500).  The Bool is `true` when the loop ran to completion. -/
def applyReservations : List Item → List Product → List Product × Bool
  | [], ps => (ps, true)
  | it :: rest, ps =>
    match ps.find? (fun p => p.id == it.productId) with
    | some p =>
      if p.canReserve it.qty then applyReservations rest (reserveStep ps it)
      else (ps, false)
    | none => (ps, false)

/-- The subtotal computation (lines 2012-2015): sum of final price times quantity
over the fetched products. -/
def orderSubtotal (fetched : List Product) (items : List Item) : Rat :=
  items.foldl
    (fun sum it =>
      sum +
        (match fetched.find? (fun p => p.id == it.productId) with
         | some p => p.getFinalPrice
         | none => 0) * (it.qty : Rat))
    0

/-- The product query of the create-order route (line 1993):
`Product.findAll({ where: { id: productIds, storeId, is_active: true } })`. -/
def fetchedProducts (req : CreateOrderRequest) (st : AppState) : List Product :=
  st.products.filter fun p =>
    req.items.any (fun it => it.productId == p.id) &&
      p.storeId == req.storeId && p.isActive

/-- The order row inserted by `Order.create` (lines 2020-2033): delivery fee 0,
subtotal from the fetched products' final prices, initial status confirmed for cash
and payment_pending otherwise. -/
def builtOrder (req : CreateOrderRequest) (key : String) (newId : Nat)
    (fetched : List Product) : Order :=
  { id := newId, userId := req.userId, storeId := req.storeId,
    totalAmount := orderSubtotal fetched req.items + 0,
    subtotalAmount := orderSubtotal fetched req.items, deliveryFee := 0,
    paymentMethod := req.paymentMethod,
    status := if req.paymentMethod = .cash then .confirmed else .payment_pending,
    deliveryAddress := req.deliveryAddress, idempotencyKey := key,
    items := req.items, paymentStatus := .pending }

/-- POST /api/v1/orders (src/unnamed/part_006, lines 1955-2045).  `freshKey` models the
server-generated `uuidv4()` fallback key and `newId` the id assigned to a newly
inserted order row. -/
def createOrder (req : CreateOrderRequest) (freshKey : String) (newId : Nat)
    (st : AppState) : CreateResult × AppState :=
  if req.items.isEmpty then (.validationFailed, st)
  else
    let key := jsOrKey req.idempotencyKey freshKey
    match st.orders.find? (fun o => o.idempotencyKey == key) with
    | some existing => (.okExisting existing.id existing.status, st)
    | none =>
      match st.stores.find? (fun s => s.id == req.storeId) with
      | none => (.storeNotAvailable, st)
      | some store =>
        if store.status ≠ "open" then (.storeNotAvailable, st)
        else
          let fetched := fetchedProducts req st
          if fetched.length ≠ req.items.length then (.productsNotAvailable, st)
          else
            match firstFailingItem fetched req.items with
            | some it => (.insufficientStock it.productId, st)
            | none =>
              match applyReservations req.items st.products with
              | (ps, false) => (.serverError, { st with products := ps })
              | (ps, true) =>
                let order : Order := builtOrder req key newId fetched
                (.created order.id order.status,
                  { st with products := ps, orders := st.orders ++ [order] })

/-- The responses of the cancel route: 404, 400 not cancellable, 200 cancelled. -/
inductive CancelResult where
  | notFound
  | notCancellable
  | ok
deriving DecidableEq, Repr

/-- `item.quantity || item.qty || 0` (line 2223): JavaScript `||` skips falsy values,
so a present non-zero `quantity` field wins, otherwise `qty` is used. -/
def releaseAmount (it : Item) : Nat :=
  match it.quantity with
  | some n => if n = 0 then it.qty else n
  | none => it.qty

/-- The effect of one release-loop iteration on the row with the item's product id. -/
def rel1 (it : Item) (p : Product) : Product :=
  if p.id == it.productId then p.releaseReservation (releaseAmount it) else p

/-- One iteration of the release loop (lines 2221-2224): `Product.findByPk` then
`releaseReservation`; a missing product is skipped. -/
def releaseStep (ps : List Product) (it : Item) : List Product :=
  ps.map (rel1 it)

/-- The status whitelist of the cancel route (line 2210). -/
def cancellableStatuses : List Status :=
  [.created, .payment_pending, .confirmed, .assigning]

/-- The cancelled order row saved by the cancel route (lines 2214-2218). -/
def cancelledVersion (o : Order) (reason : Option String) (now : Nat) : Order :=
  { o with status := .cancelled, cancelledAt := some now,
           cancelledBy := some .customer, cancellationReason := reason }

/-- POST /api/v1/orders/:orderId/cancel (src/unnamed/part_006, lines 2200-2241). -/
def cancelOrder (orderId userId : Nat) (reason : Option String) (now : Nat)
    (st : AppState) : CancelResult × AppState :=
  match st.orders.find? (fun o => o.id == orderId) with
  | none => (.notFound, st)
  | some order =>
    if order.userId ≠ userId then (.notFound, st)
    else if ! cancellableStatuses.contains order.status then (.notCancellable, st)
    else
      let order' := cancelledVersion order reason now
      let orders' := st.orders.map fun q => if q.id == order.id then order' else q
      let products' := order'.items.foldl releaseStep st.products
      (.ok, { st with orders := orders', products := products' })

/-- An order in the delivered phase, owned by user 7. -/
def deliveredOrder : Order :=
  { id := 4, userId := 7, storeId := 3, totalAmount := 100, subtotalAmount := 100,
    deliveryFee := 0, paymentMethod := .card, status := .delivered,
    deliveryAddress := "addr", idempotencyKey := "key-d4",
    items := [{ productId := 1, qty := 2 }], paymentStatus := .paid }

/-- A database state whose only order is in the delivered phase. -/
def deliveredState : AppState :=
  { stores := [], products := [], orders := [deliveredOrder], payments := [] }

/-- An open store, used in concrete order-creation scenarios. -/
def openStore : Store := { id := 3, status := "open" }

/-- A create-order request for 2 units of product 1 at store 3, cash, key "K1". -/
def createReq : CreateOrderRequest :=
  { userId := 7, items := [{ productId := 1, qty := 2 }], storeId := 3,
    deliveryAddress := "addr", paymentMethod := .cash,
    idempotencyKey := some "K1" }

/-- A database state with one open store and one product in stock, no orders. -/
def shopState : AppState :=
  { stores := [openStore], products := [sampleProduct], orders := [], payments := [] }

/-- The product of the specification's cancellation scenario: stock 5, reserved 0. -/
def scenarioProduct : Product :=
  { id := 1, storeId := 3, price := 10, discountPercentage := 0,
    quantity := 5, reservedQuantity := 0, isActive := true }

/-- The state of the specification's cancellation scenario. -/
def scenarioState : AppState :=
  { stores := [openStore], products := [scenarioProduct], orders := [],
    payments := [] }

/-- A product with stock 10 of which 3 units are reserved by other orders. -/
def sneakyProduct : Product :=
  { id := 1, storeId := 3, price := 10, discountPercentage := 0,
    quantity := 10, reservedQuantity := 3, isActive := true }

/-- A create-order request whose single item carries, beside the documented `qty: 2`,
a spurious `quantity: 7` field — request items are only validated as a non-empty
array, so the extra field survives into the stored snapshot. -/
def sneakyReq : CreateOrderRequest :=
  { userId := 7, items := [{ productId := 1, qty := 2, quantity := some 7 }],
    storeId := 3, deliveryAddress := "addr", paymentMethod := .cash,
    idempotencyKey := some "K9" }

/-- A database state for the spurious-quantity counterexample. -/
def sneakyState : AppState :=
  { stores := [openStore], products := [sneakyProduct], orders := [],
    payments := [] }

/-- A product with only one unit in stock. -/
def shortProduct : Product :=
  { id := 1, storeId := 3, price := 10, discountPercentage := 0,
    quantity := 1, reservedQuantity := 0, isActive := true }

/-- A database state where the requested product is short on stock. -/
def shortState : AppState :=
  { stores := [openStore], products := [shortProduct], orders := [],
    payments := [] }

/-- Replaces a product's reservation counter. -/
def setReserved (p : Product) (r : Nat) : Product :=
  { p with reservedQuantity := r }

/-- The cumulative effect of the create-order apply loop on one product row. -/
def elemBump (items : List Item) (p : Product) : Product :=
  items.foldl (fun q it => bump1 it q) p

/-- The cumulative effect of the cancel-order release loop on one product row. -/
def elemRelease (items : List Item) (p : Product) : Product :=
  items.foldl (fun q it => rel1 it q) p

/-- The total quantity the order lines reserve on the product with id `pid`. -/
def bumpSum (pid : Nat) : List Item → Nat
  | [] => 0
  | it :: rest => (if pid == it.productId then it.qty else 0) + bumpSum pid rest

/-- find? by key commutes with an update map that only rewrites elements of the found
key and preserves that key. -/
theorem find?_map_update {α : Type} (k : α → Nat) (f : α → α) (l : List α)
    (pid : Nat) (p : α)
    (hfind : l.find? (fun q => k q == pid) = some p)
    (hf : ∀ q, k q ≠ pid → f q = q) (hk : k (f p) = k p) :
    (l.map f).find? (fun q => k q == pid) = some (f p) := by
  induction l with
  | nil => simp at hfind
  | cons a as ih =>
    by_cases ha : (k a == pid) = true
    · rw [@List.find?_cons_of_pos _ (fun q => k q == pid) a as ha] at hfind
      injection hfind with hfind
      subst hfind
      have hfa : (k (f a) == pid) = true := by rw [hk]; exact ha
      rw [List.map_cons,
        @List.find?_cons_of_pos _ (fun q => k q == pid) (f a) (as.map f) hfa]
    · rw [@List.find?_cons_of_neg _ (fun q => k q == pid) a as ha] at hfind
      rw [List.map_cons, hf a (by simpa using ha),
        @List.find?_cons_of_neg _ (fun q => k q == pid) a (as.map f) ha]
      exact ih hfind

/-- find? by key after a map that rewrites the matching elements with `g` and leaves
all others alone. -/
theorem find?_map_modify {α : Type} (k : α → Nat) (g : α → α) (l : List α)
    (pid : Nat) (p : α)
    (hp : l.find? (fun q => k q == pid) = some p) (hg : k (g p) = k p) :
    (l.map fun q => if k q == pid then g q else q).find? (fun q => k q == pid) =
      some (g p) := by
  have hppid : (k p == pid) = true := @List.find?_some _ (fun q => k q == pid) p l hp
  have hfp : (fun q => if k q == pid then g q else q) p = g p := by
    simp [hppid]
  have h := find?_map_update k (fun q => if k q == pid then g q else q) l pid p hp
    (by intro q hq; simp [hq]) (by simp [hppid, hg])
  rw [hfp] at h
  exact h

/-- On a success outcome matching a known payment, the webhook handler acknowledges,
marks the payment captured with the provider transaction id and a `capturedAt` stamp,
and marks all orders with the payment's order id as paid. -/
theorem processWebhook_capture_eq (w : WebhookRequest) (now : Nat) (st : AppState)
    (pid : Nat) (p : Payment)
    (hpid : w.paymentId = some pid)
    (hp : st.payments.find? (fun q => q.id == pid) = some p)
    (hs : w.success = true) :
    processWebhook w now st =
      (true,
        { st with
          orders := st.orders.map fun o =>
            if o.id == p.orderId then { o with paymentStatus := .paid } else o,
          payments := st.payments.map fun q =>
            if q.id == p.id then
              { p with status := .captured,
                       providerPaymentId := some w.transactionId,
                       capturedAt := some now }
            else q }) := by
  simp only [processWebhook, hpid, hp, hs, if_true]

/-- On a failure outcome matching a known payment, the webhook handler acknowledges,
marks the payment failed with the provider transaction id, and leaves orders alone. -/
theorem processWebhook_failed_eq (w : WebhookRequest) (now : Nat) (st : AppState)
    (pid : Nat) (p : Payment)
    (hpid : w.paymentId = some pid)
    (hp : st.payments.find? (fun q => q.id == pid) = some p)
    (hs : w.success = false) :
    processWebhook w now st =
      (true,
        { st with
          payments := st.payments.map fun q =>
            if q.id == p.id then
              { p with status := .failed,
                       providerPaymentId := some w.transactionId }
            else q }) := by
  simp only [processWebhook, hpid, hp, hs, if_false, Bool.false_eq_true]

/-- A completed apply loop equals the per-item fold of reservation bumps. -/
theorem applyReservations_fst_of_true (items : List Item) :
    ∀ (ps ps' : List Product), applyReservations items ps = (ps', true) →
      ps' = items.foldl reserveStep ps := by
  induction items with
  | nil =>
    intro ps ps' h
    injection h with h _
    exact h.symm
  | cons it rest ih =>
    intro ps ps' h
    unfold applyReservations at h
    cases hf : ps.find? (fun p => p.id == it.productId) with
    | none => simp [hf] at h
    | some p =>
      simp only [hf] at h
      by_cases hc : p.canReserve it.qty = true
      · rw [if_pos hc] at h
        exact ih (reserveStep ps it) ps' h
      · rw [if_neg hc] at h
        simp at h

/-- The apply loop, as a transformation of the whole product list, is the map of the
per-row cumulative bump. -/
theorem foldl_reserveStep (items : List Item) :
    ∀ ps : List Product, items.foldl reserveStep ps = ps.map (elemBump items) := by
  induction items with
  | nil => intro ps; exact (List.map_id ps).symm
  | cons it rest ih =>
    intro ps
    show rest.foldl reserveStep (ps.map (bump1 it)) = _
    rw [ih (ps.map (bump1 it)), List.map_map]
    rfl

/-- The release loop, as a transformation of the whole product list, is the map of the
per-row cumulative release. -/
theorem foldl_releaseStep (items : List Item) :
    ∀ ps : List Product, items.foldl releaseStep ps = ps.map (elemRelease items) := by
  induction items with
  | nil => intro ps; exact (List.map_id ps).symm
  | cons it rest ih =>
    intro ps
    show rest.foldl releaseStep (ps.map (rel1 it)) = _
    rw [ih (ps.map (rel1 it)), List.map_map]
    rfl

/-- The cumulative bump only raises the reservation counter, by the matching total. -/
theorem elemBump_eq (items : List Item) :
    ∀ p : Product,
      elemBump items p = setReserved p (p.reservedQuantity + bumpSum p.id items) := by
  induction items with
  | nil => intro p; rfl
  | cons it rest ih =>
    intro p
    show elemBump rest (bump1 it p) = _
    by_cases hm : (p.id == it.productId) = true
    · rw [show bump1 it p = setReserved p (p.reservedQuantity + it.qty) from by
        unfold bump1; rw [if_pos hm]; rfl]
      rw [ih (setReserved p (p.reservedQuantity + it.qty))]
      show setReserved p ((p.reservedQuantity + it.qty) + bumpSum p.id rest) = _
      rw [show bumpSum p.id (it :: rest) = it.qty + bumpSum p.id rest from by
        simp [bumpSum, hm]]
      exact congrArg (setReserved p) (Nat.add_assoc _ _ _)
    · rw [show bump1 it p = p from by unfold bump1; rw [if_neg hm]]
      rw [ih p]
      rw [show bumpSum p.id (it :: rest) = bumpSum p.id rest from by
        simp [bumpSum, hm]]

/-- Releasing the matched quantities takes the counter back down, exactly, as long as
every line releases its own `qty`. -/
theorem elemRelease_eq (items : List Item) :
    ∀ (p : Product) (r : Nat), (∀ it ∈ items, releaseAmount it = it.qty) →
      elemRelease items (setReserved p (r + bumpSum p.id items)) = setReserved p r := by
  induction items with
  | nil => intro p r _; rfl
  | cons it rest ih =>
    intro p r hrel
    show elemRelease rest (rel1 it (setReserved p (r + bumpSum p.id (it :: rest)))) = _
    by_cases hm : (p.id == it.productId) = true
    · rw [show rel1 it (setReserved p (r + bumpSum p.id (it :: rest))) =
          setReserved p ((r + bumpSum p.id (it :: rest)) - releaseAmount it) from by
        simp [rel1, setReserved, Product.releaseReservation, hm]]
      have hq : releaseAmount it = it.qty := hrel it (by simp)
      have hbs : bumpSum p.id (it :: rest) = it.qty + bumpSum p.id rest := by
        simp [bumpSum, hm]
      rw [show (r + bumpSum p.id (it :: rest)) - releaseAmount it =
          r + bumpSum p.id rest from by rw [hq, hbs]; omega]
      exact ih p r (fun it' h' => hrel it' (List.mem_cons_of_mem it h'))
    · rw [show rel1 it (setReserved p (r + bumpSum p.id (it :: rest))) =
          setReserved p (r + bumpSum p.id (it :: rest)) from by
        simp [rel1, setReserved, hm]]
      rw [show bumpSum p.id (it :: rest) = bumpSum p.id rest from by
        simp [bumpSum, hm]]
      exact ih p r (fun it' h' => hrel it' (List.mem_cons_of_mem it h'))

/-- Per product row, releasing after bumping with the same lines is the identity,
as long as every line releases its own `qty`. -/
theorem rel_bump_cancel (items : List Item) (p : Product)
    (hrel : ∀ it ∈ items, releaseAmount it = it.qty) :
    elemRelease items (elemBump items p) = p := by
  rw [elemBump_eq items p]
  exact elemRelease_eq items p p.reservedQuantity hrel

/-- A successful customer cancellation: the order row is saved as cancelled and the
release loop runs over its items. -/
theorem cancelOrder_ok_eq (orderId userId : Nat) (reason : Option String) (now : Nat)
    (st : AppState) (o : Order)
    (ho : st.orders.find? (fun q => q.id == orderId) = some o)
    (hu : o.userId = userId)
    (hc : cancellableStatuses.contains o.status = true) :
    cancelOrder orderId userId reason now st =
      (.ok,
        { st with
          orders := st.orders.map fun q =>
            if q.id == o.id then cancelledVersion o reason now else q,
          products := o.items.foldl releaseStep st.products }) := by
  simp only [cancelOrder, ho]
  rw [if_neg (by simp [hu]), if_neg (by rw [hc]; decide)]
  rfl

/-- A cancellation attempt outside the status whitelist is rejected with no state
change. -/
theorem cancelOrder_reject_eq (orderId userId : Nat) (reason : Option String)
    (now : Nat) (st : AppState) (o : Order)
    (ho : st.orders.find? (fun q => q.id == orderId) = some o)
    (hu : o.userId = userId)
    (hc : cancellableStatuses.contains o.status = false) :
    cancelOrder orderId userId reason now st = (.notCancellable, st) := by
  simp only [cancelOrder, ho]
  rw [if_neg (by simp [hu]), if_pos (by rw [hc]; decide)]

/-- The idempotency check (lines 1979-1983): a request whose key already names an
existing order is answered with that order's id and status, and the database state is
untouched — no reservation is run and no order row is inserted. -/
theorem createOrder_existing_eq (req : CreateOrderRequest) (fk : String) (oid : Nat)
    (st : AppState) (ex : Order)
    (hne : req.items.isEmpty = false)
    (hex : st.orders.find?
      (fun o => o.idempotencyKey == jsOrKey req.idempotencyKey fk) = some ex) :
    createOrder req fk oid st = (.okExisting ex.id ex.status, st) := by
  simp only [createOrder, hne, Bool.false_eq_true, if_false, hex]

/-- Inversion of a successful order creation: the items were non-empty, no order with
the request's key existed, the response carries the new row's id and status, and the
new state is the old one with the reservations applied and the new row appended. -/
theorem createOrder_created_inversion (req : CreateOrderRequest) (fk : String)
    (oid : Nat) (st : AppState) (i : Nat) (s : Status) (st1 : AppState)
    (h : createOrder req fk oid st = (.created i s, st1)) :
    req.items.isEmpty = false
    ∧ st.orders.find?
        (fun o => o.idempotencyKey == jsOrKey req.idempotencyKey fk) = none
    ∧ i = oid
    ∧ s = (builtOrder req (jsOrKey req.idempotencyKey fk) oid
        (fetchedProducts req st)).status
    ∧ st1 = { st with
        products := req.items.foldl reserveStep st.products,
        orders := st.orders ++
          [builtOrder req (jsOrKey req.idempotencyKey fk) oid
            (fetchedProducts req st)] } := by
  cases hne : req.items.isEmpty with
  | true => simp [createOrder, hne] at h
  | false =>
    cases hfind : st.orders.find?
        (fun o => o.idempotencyKey == jsOrKey req.idempotencyKey fk) with
    | some ex => simp [createOrder, hne, hfind] at h
    | none =>
      cases hstore : st.stores.find? (fun s0 => s0.id == req.storeId) with
      | none => simp [createOrder, hne, hfind, hstore] at h
      | some store =>
        by_cases hopen : store.status = "open"
        · by_cases hlen : (fetchedProducts req st).length = req.items.length
          · cases hchk : firstFailingItem (fetchedProducts req st) req.items with
            | some it => simp [createOrder, hne, hfind, hstore, hopen, hlen, hchk] at h
            | none =>
              cases happ : applyReservations req.items st.products with
              | mk ps flag =>
                cases flag with
                | false =>
                  simp [createOrder, hne, hfind, hstore, hopen, hlen, hchk, happ] at h
                | true =>
                  simp only [createOrder, hne, hfind, hstore, hopen, hlen, hchk,
                    happ, Bool.false_eq_true, if_false, ne_eq, not_true_eq_false,
                    not_false_eq_true] at h
                  have hps : ps = req.items.foldl reserveStep st.products :=
                    applyReservations_fst_of_true req.items st.products ps happ
                  rw [Prod.mk.injEq] at h
                  obtain ⟨hres, hstate⟩ := h
                  rw [CreateResult.created.injEq] at hres
                  obtain ⟨hid, hstat⟩ := hres
                  rw [hps] at hstate
                  exact ⟨rfl, rfl, hid.symm, hstat.symm, hstate.symm⟩
          · simp [createOrder, hne, hfind, hstore, hopen, hlen] at h
        · simp [createOrder, hne, hfind, hstore, hopen] at h

/-- C1: `transitionTo` fails with InvalidTransition exactly when the target is outside
the allowed-target set of the current status, on success sets the status to the target,
and the allowed-target sets are exactly the pairs enumerated by the specification
(created→{payment_pending,cancelled}, …, with completed, cancelled, refunded terminal). -/
theorem order_state_machine_transition_spec (o : Order) (t : Status) (now : Nat) :
    (o.canTransitionTo t = false →
      o.transitionTo t now = .error (.invalidTransition o.status t))
    ∧ (o.canTransitionTo t = true →
      ∃ o', o.transitionTo t now = .ok o' ∧ o'.status = t)
    ∧ (∀ s u : Status, (validTransitions s).contains u = true ↔ (s, u) ∈ specAllowedPairs) := by
  refine ⟨?_, ?_, ?_⟩
  · intro h
    simp [Order.transitionTo, h]
  · intro h
    unfold Order.transitionTo
    rw [if_pos h]
    exact ⟨_, rfl, by cases t <;> rfl⟩
  · decide

/-- Concrete instantiation of the state-machine theorem: from `created`, moving to
`payment_pending` succeeds, and moving to `delivered` is rejected. -/
theorem order_state_machine_transition_spec_witness :
    (∃ o', sampleOrder.transitionTo .payment_pending 0 = .ok o' ∧
      o'.status = .payment_pending)
    ∧ sampleOrder.transitionTo .delivered 0 =
      .error (.invalidTransition .created .delivered) :=
  ⟨(order_state_machine_transition_spec sampleOrder .payment_pending 0).2.1 (by decide),
   (order_state_machine_transition_spec sampleOrder .delivered 0).1 (by decide)⟩

/-- C3: assuming the stock invariant `reserved ≤ quantity` (the lower bound `0 ≤ reserved`
is enforced by the `min: 0` column validation and holds definitionally over `Nat`),
`reserve` succeeds exactly when `available = quantity - reserved` is at least the requested
amount and then increments the reservation counter, `releaseReservation` decrements it
floored at zero, and both operations preserve the invariant. -/
theorem stock_invariant_preserved (p : Product) (amount : Nat)
    (hinv : p.reservedQuantity ≤ p.quantity) :
    ((p.reserve amount).isOk = true ↔ amount ≤ p.quantity - p.reservedQuantity)
    ∧ (∀ p', p.reserve amount = .ok p' →
        p'.reservedQuantity = p.reservedQuantity + amount ∧
        p'.quantity = p.quantity ∧
        p'.reservedQuantity ≤ p'.quantity)
    ∧ ((p.releaseReservation amount).reservedQuantity = p.reservedQuantity - amount
       ∧ (p.releaseReservation amount).quantity = p.quantity
       ∧ (p.releaseReservation amount).reservedQuantity ≤
         (p.releaseReservation amount).quantity) := by
  refine ⟨?_, ?_, rfl, rfl, ?_⟩
  · by_cases hc : amount ≤ p.quantity - p.reservedQuantity
    · simp [Product.reserve, Product.canReserve, Product.getAvailableQuantity, hc,
        Except.isOk, Except.toBool]
    · simp [Product.reserve, Product.canReserve, Product.getAvailableQuantity, hc,
        Except.isOk, Except.toBool]
  · intro p' h
    rw [Product.reserve] at h
    by_cases hc : p.canReserve amount
    · rw [if_pos hc] at h
      have hle : amount ≤ p.quantity - p.reservedQuantity := by
        have := of_decide_eq_true hc
        simpa [Product.getAvailableQuantity] using this
      injection h with h
      subst h
      refine ⟨rfl, rfl, ?_⟩
      show p.reservedQuantity + amount ≤ p.quantity
      omega
    · rw [if_neg hc] at h
      cases h
  · show p.reservedQuantity - amount ≤ p.quantity
    omega

/-- Concrete instantiation of the stock theorem at a product with quantity 5 and
reserved 1: reserving 3 more succeeds and releasing floors at zero. -/
theorem stock_invariant_preserved_witness :
    ((sampleProduct.reserve 3).isOk = true ↔
      3 ≤ sampleProduct.quantity - sampleProduct.reservedQuantity)
    ∧ (∀ p', sampleProduct.reserve 3 = .ok p' →
        p'.reservedQuantity = sampleProduct.reservedQuantity + 3 ∧
        p'.quantity = sampleProduct.quantity ∧
        p'.reservedQuantity ≤ p'.quantity)
    ∧ ((sampleProduct.releaseReservation 3).reservedQuantity =
        sampleProduct.reservedQuantity - 3
       ∧ (sampleProduct.releaseReservation 3).quantity = sampleProduct.quantity
       ∧ (sampleProduct.releaseReservation 3).reservedQuantity ≤
         (sampleProduct.releaseReservation 3).quantity) :=
  stock_invariant_preserved sampleProduct 3 (by decide)

/-- C7 (amended): on a success outcome matching a known payment, reconciliation sets the
payment's status to captured, stamps captured_at, overwrites the provider transaction id,
and sets the owning order's payment_status to paid — but it performs no order state-machine
transition: the order's status field is left unchanged. -/
theorem webhook_capture_updates_payment_not_order_status (w : WebhookRequest)
    (now : Nat) (st : AppState) (pid : Nat) (p : Payment) (o : Order)
    (hpid : w.paymentId = some pid)
    (hp : st.payments.find? (fun q => q.id == pid) = some p)
    (hs : w.success = true)
    (ho : st.orders.find? (fun q => q.id == p.orderId) = some o) :
    (processWebhook w now st).1 = true
    ∧ (processWebhook w now st).2.payments.find? (fun q => q.id == pid) =
        some { p with status := .captured,
                      providerPaymentId := some w.transactionId,
                      capturedAt := some now }
    ∧ (processWebhook w now st).2.orders.find? (fun q => q.id == p.orderId) =
        some { o with paymentStatus := .paid }
    ∧ (Order.status { o with paymentStatus := .paid } = o.status) := by
  have heq := processWebhook_capture_eq w now st pid p hpid hp hs
  rw [heq]
  have hpe : p.id = pid := by
    simpa using @List.find?_some _ (fun q => q.id == pid) p st.payments hp
  refine ⟨rfl, ?_, ?_, rfl⟩
  · have h := find?_map_modify Payment.id
      (fun _ => { p with status := .captured,
                         providerPaymentId := some w.transactionId,
                         capturedAt := some now })
      st.payments pid p hp rfl
    simpa [hpe] using h
  · exact find?_map_modify Order.id (fun q => { q with paymentStatus := .paid })
      st.orders p.orderId o ho rfl

/-- Concrete instantiation of the capture-effects theorem on `awaitingState`. -/
theorem webhook_capture_updates_payment_not_order_status_witness :
    (processWebhook captureWebhook 5 awaitingState).1 = true
    ∧ (processWebhook captureWebhook 5 awaitingState).2.payments.find?
        (fun q => q.id == 1) =
        some { samplePayment with
                 status := .captured,
                 providerPaymentId := some "txn-1",
                 capturedAt := some 5 }
    ∧ (processWebhook captureWebhook 5 awaitingState).2.orders.find?
        (fun q => q.id == samplePayment.orderId) =
        some { awaitingOrder with paymentStatus := .paid }
    ∧ (Order.status { awaitingOrder with paymentStatus := .paid } =
        awaitingOrder.status) :=
  webhook_capture_updates_payment_not_order_status captureWebhook 5 awaitingState
    1 samplePayment awaitingOrder rfl rfl rfl rfl

/-- Counterexample to C7 as stated: in `awaitingState` the order is in
`payment_pending`, the success webhook for its payment is reconciled (the order is
marked paid), yet the order's status stays `payment_pending` instead of moving to
`confirmed` — the handler never invokes the order state machine. -/
theorem webhook_capture_no_transition_counterexample :
    ((processWebhook captureWebhook 5 awaitingState).2.orders.map Order.status) =
      [.payment_pending]
    ∧ ((processWebhook captureWebhook 5 awaitingState).2.orders.map
        Order.paymentStatus) = [.paid]
    ∧ Status.payment_pending ≠ Status.confirmed := by
  refine ⟨rfl, rfl, by decide⟩

/-- C9 (amended): a capture webhook for an order that is already cancelled never
resurrects the order — its status stays `cancelled` — but reconciliation is not a
no-op on the other fields: the order's payment_status is set to paid and the payment
is marked captured; there is no terminal-order check and no orphan handling. -/
theorem webhook_capture_on_cancelled_order (w : WebhookRequest)
    (now : Nat) (st : AppState) (pid : Nat) (p : Payment) (o : Order)
    (hpid : w.paymentId = some pid)
    (hp : st.payments.find? (fun q => q.id == pid) = some p)
    (hs : w.success = true)
    (ho : st.orders.find? (fun q => q.id == p.orderId) = some o)
    (hc : o.status = .cancelled) :
    (processWebhook w now st).2.orders.find? (fun q => q.id == p.orderId) =
        some { o with paymentStatus := .paid }
    ∧ Order.status { o with paymentStatus := .paid } = .cancelled
    ∧ (processWebhook w now st).2.payments.find? (fun q => q.id == pid) =
        some { p with status := .captured,
                      providerPaymentId := some w.transactionId,
                      capturedAt := some now } := by
  have heq := processWebhook_capture_eq w now st pid p hpid hp hs
  rw [heq]
  have hpe : p.id = pid := by
    simpa using @List.find?_some _ (fun q => q.id == pid) p st.payments hp
  refine ⟨?_, hc, ?_⟩
  · exact find?_map_modify Order.id (fun q => { q with paymentStatus := .paid })
      st.orders p.orderId o ho rfl
  · have h := find?_map_modify Payment.id
      (fun _ => { p with status := .captured,
                         providerPaymentId := some w.transactionId,
                         capturedAt := some now })
      st.payments pid p hp rfl
    simpa [hpe] using h

/-- Concrete instantiation of the cancelled-order capture theorem on
`cancelledState`. -/
theorem webhook_capture_on_cancelled_order_witness :
    (processWebhook lateCaptureWebhook 9 cancelledState).2.orders.find?
        (fun q => q.id == cancelledOrderPayment.orderId) =
        some { cancelledOrder with paymentStatus := .paid }
    ∧ Order.status { cancelledOrder with paymentStatus := .paid } = .cancelled
    ∧ (processWebhook lateCaptureWebhook 9 cancelledState).2.payments.find?
        (fun q => q.id == 2) =
        some { cancelledOrderPayment with
                 status := .captured,
                 providerPaymentId := some "txn-2",
                 capturedAt := some 9 } :=
  webhook_capture_on_cancelled_order lateCaptureWebhook 9 cancelledState 2
    cancelledOrderPayment cancelledOrder rfl rfl rfl rfl rfl

/-- Counterexample to C9 as stated: in `cancelledState` the capture webhook changes
the cancelled order's payment_status from pending to paid, and the payment is marked
captured rather than rejected — only the status field itself is left alone. -/
theorem webhook_capture_on_cancelled_changes_payment_status_counterexample :
    ((processWebhook lateCaptureWebhook 9 cancelledState).2.orders.map
        Order.paymentStatus) = [.paid]
    ∧ (cancelledState.orders.map Order.paymentStatus) = [.pending]
    ∧ OrderPaymentStatus.paid ≠ OrderPaymentStatus.pending
    ∧ ((processWebhook lateCaptureWebhook 9 cancelledState).2.payments.map
        Payment.status) = [.captured] :=
  ⟨rfl, rfl, by decide, rfl⟩

/-- C6: the handler's signature check is commented out (src/unnamed/part_003 lines
225-228), so the handler's result never depends on the signature-validity of the
payload, and a concrete webhook with an invalid signature is fully reconciled: the
state changes (the payment is marked captured) and the success acknowledgment is
returned, where the specification demands rejection before reconciliation. -/
theorem webhook_signature_not_verified :
    (∀ (w : WebhookRequest) (b : Bool) (now : Nat) (st : AppState),
      processWebhook { w with signatureValid := b } now st = processWebhook w now st)
    ∧ forgedWebhook.signatureValid = false
    ∧ (processWebhook forgedWebhook 5 awaitingState).1 = true
    ∧ (processWebhook forgedWebhook 5 awaitingState).2 ≠ awaitingState
    ∧ ((processWebhook forgedWebhook 5 awaitingState).2.payments.map
        Payment.status) = [.captured] :=
  ⟨fun _ _ _ _ => rfl, rfl, rfl, by decide, rfl⟩

/-- C8 (amended): delivering the same webhook a second time re-acknowledges and leaves
the entire state unchanged except for the capture timestamp: after forgetting
`capturedAt` stamps, the state after two deliveries equals the state after one.
(The handler has no transaction-id duplicate detection; a success replay re-stamps
`capturedAt` with the later delivery time, which is the only difference.) -/
theorem webhook_replay_changes_only_capture_time (w : WebhookRequest)
    (now1 now2 : Nat) (st : AppState) :
    (processWebhook w now2 (processWebhook w now1 st).2).1 =
      (processWebhook w now1 st).1
    ∧ ((processWebhook w now2 (processWebhook w now1 st).2).2).eraseCaptureTimes =
      ((processWebhook w now1 st).2).eraseCaptureTimes := by
  rcases hw : w.paymentId with _ | pid
  · constructor <;> simp [processWebhook, hw]
  · rcases hp : st.payments.find? (fun q => q.id == pid) with _ | p
    · constructor <;> simp [processWebhook, hw, hp]
    · have hpe : p.id = pid := by
        simpa using @List.find?_some _ (fun q => q.id == pid) p st.payments hp
      cases hs : w.success with
      | false =>
        have h1 := processWebhook_failed_eq w now1 st pid p hw hp hs
        have h1' : (processWebhook w now1 st).2 =
            { st with payments := st.payments.map fun q =>
                if q.id == p.id then
                  ({ p with status := .failed,
                            providerPaymentId := some w.transactionId } : Payment)
                else q } := by rw [h1]
        have hp1 : ((processWebhook w now1 st).2).payments.find?
            (fun q => q.id == pid) =
            some { p with status := .failed,
                          providerPaymentId := some w.transactionId } := by
          rw [h1']
          simpa [hpe] using find?_map_modify Payment.id
            (fun _ => { p with status := .failed,
                               providerPaymentId := some w.transactionId })
            st.payments pid p hp rfl
        have h2 := processWebhook_failed_eq w now2 (processWebhook w now1 st).2 pid
          ({ p with status := .failed, providerPaymentId := some w.transactionId })
          hw hp1 hs
        have h2' : (processWebhook w now2 (processWebhook w now1 st).2).2 =
            { (processWebhook w now1 st).2 with
              payments := ((processWebhook w now1 st).2).payments.map fun q =>
                if q.id ==
                    ({ p with status := .failed,
                              providerPaymentId := some w.transactionId } : Payment).id
                  then
                  ({ ({ p with status := .failed,
                               providerPaymentId := some w.transactionId } : Payment) with
                       status := .failed,
                       providerPaymentId := some w.transactionId } : Payment)
                else q } := by rw [h2]
        constructor
        · rw [h2, h1]
        · rw [h2', h1']
          dsimp only
          simp only [AppState.eraseCaptureTimes, AppState.mk.injEq]
          refine ⟨trivial, trivial, trivial, ?_⟩
          rw [List.map_map, List.map_map, List.map_map]
          refine List.map_congr_left ?_
          intro q _
          dsimp only [Function.comp]
          by_cases hq : (q.id == p.id) = true
          · simp [hq, Payment.eraseCapturedAt]
          · simp [hq]
      | true =>
        have h1 := processWebhook_capture_eq w now1 st pid p hw hp hs
        have h1' : (processWebhook w now1 st).2 =
            { st with
              orders := st.orders.map fun o =>
                if o.id == p.orderId then { o with paymentStatus := .paid } else o,
              payments := st.payments.map fun q =>
                if q.id == p.id then
                  ({ p with status := .captured,
                            providerPaymentId := some w.transactionId,
                            capturedAt := some now1 } : Payment)
                else q } := by rw [h1]
        have hp1 : ((processWebhook w now1 st).2).payments.find?
            (fun q => q.id == pid) =
            some { p with status := .captured,
                          providerPaymentId := some w.transactionId,
                          capturedAt := some now1 } := by
          rw [h1']
          simpa [hpe] using find?_map_modify Payment.id
            (fun _ => { p with status := .captured,
                               providerPaymentId := some w.transactionId,
                               capturedAt := some now1 })
            st.payments pid p hp rfl
        have h2 := processWebhook_capture_eq w now2 (processWebhook w now1 st).2 pid
          ({ p with status := .captured, providerPaymentId := some w.transactionId,
                    capturedAt := some now1 })
          hw hp1 hs
        have h2' : (processWebhook w now2 (processWebhook w now1 st).2).2 =
            { (processWebhook w now1 st).2 with
              orders := ((processWebhook w now1 st).2).orders.map fun o =>
                if o.id ==
                    ({ p with status := .captured,
                              providerPaymentId := some w.transactionId,
                              capturedAt := some now1 } : Payment).orderId
                  then { o with paymentStatus := .paid } else o,
              payments := ((processWebhook w now1 st).2).payments.map fun q =>
                if q.id ==
                    ({ p with status := .captured,
                              providerPaymentId := some w.transactionId,
                              capturedAt := some now1 } : Payment).id
                  then
                  ({ ({ p with status := .captured,
                               providerPaymentId := some w.transactionId,
                               capturedAt := some now1 } : Payment) with
                       status := .captured,
                       providerPaymentId := some w.transactionId,
                       capturedAt := some now2 } : Payment)
                else q } := by rw [h2]
        constructor
        · rw [h2, h1]
        · rw [h2', h1']
          dsimp only
          simp only [AppState.eraseCaptureTimes, AppState.mk.injEq]
          refine ⟨trivial, trivial, ?_, ?_⟩
          · rw [List.map_map]
            refine List.map_congr_left ?_
            intro o _
            dsimp only [Function.comp]
            by_cases ho : (o.id == p.orderId) = true
            · simp [ho]
            · simp [ho]
          · rw [List.map_map, List.map_map, List.map_map]
            refine List.map_congr_left ?_
            intro q _
            dsimp only [Function.comp]
            by_cases hq : (q.id == p.id) = true
            · simp [hq, Payment.eraseCapturedAt]
            · simp [hq]

/-- Counterexample to C8 as stated: in `awaitingState`, delivering the same capture
webhook at times 1 and 2 yields different states — the replay re-stamps `capturedAt`
from `some 1` to `some 2` — so the state after two deliveries does not equal the
state after one. -/
theorem webhook_replay_not_idempotent_counterexample :
    (processWebhook captureWebhook 2
        (processWebhook captureWebhook 1 awaitingState).2).2 ≠
      (processWebhook captureWebhook 1 awaitingState).2
    ∧ ((processWebhook captureWebhook 1 awaitingState).2.payments.map
        Payment.capturedAt) = [some 1]
    ∧ ((processWebhook captureWebhook 2
        (processWebhook captureWebhook 1 awaitingState).2).2.payments.map
        Payment.capturedAt) = [some 2] :=
  ⟨by decide, rfl, rfl⟩

/-- C5 (amended): the customer cancel route succeeds exactly when the order's status is
in {created, payment_pending, confirmed, assigning}, moving the order to cancelled;
every other status — including the non-terminal delivery-phase statuses
courier_assigned, en_route_to_store, at_store, picking, en_route_to_customer,
delivered — is rejected with NotCancellable and no state change. -/
theorem cancel_route_status_gate (orderId userId : Nat) (reason : Option String)
    (now : Nat) (st : AppState) (o : Order)
    (ho : st.orders.find? (fun q => q.id == orderId) = some o)
    (hu : o.userId = userId) :
    (cancellableStatuses.contains o.status = true →
      (cancelOrder orderId userId reason now st).1 = .ok
      ∧ (cancelOrder orderId userId reason now st).2.orders.find?
          (fun q => q.id == orderId) = some (cancelledVersion o reason now)
      ∧ (cancelledVersion o reason now).status = .cancelled)
    ∧ (cancellableStatuses.contains o.status = false →
      cancelOrder orderId userId reason now st = (.notCancellable, st))
    ∧ cancellableStatuses = [.created, .payment_pending, .confirmed, .assigning] := by
  refine ⟨?_, ?_, rfl⟩
  · intro hc
    have heq := cancelOrder_ok_eq orderId userId reason now st o ho hu hc
    rw [heq]
    have hoid : o.id = orderId := by
      simpa using @List.find?_some _ (fun q => q.id == orderId) o st.orders ho
    refine ⟨rfl, ?_, rfl⟩
    have h := find?_map_modify Order.id (fun _ => cancelledVersion o reason now)
      st.orders orderId o ho rfl
    simpa [hoid] using h
  · intro hc
    exact cancelOrder_reject_eq orderId userId reason now st o ho hu hc

/-- Concrete instantiation of the cancel-gate theorem: a payment_pending order is
cancellable; an already-cancelled order is rejected. -/
theorem cancel_route_status_gate_witness :
    ((cancelOrder 1 7 none 4 awaitingState).1 = .ok
      ∧ (cancelOrder 1 7 none 4 awaitingState).2.orders.find? (fun q => q.id == 1) =
          some (cancelledVersion awaitingOrder none 4)
      ∧ (cancelledVersion awaitingOrder none 4).status = .cancelled)
    ∧ cancelOrder 2 7 none 4 cancelledState = (.notCancellable, cancelledState) :=
  ⟨(cancel_route_status_gate 1 7 none 4 awaitingState awaitingOrder rfl rfl).1 rfl,
   (cancel_route_status_gate 2 7 none 4 cancelledState cancelledOrder rfl rfl).2.1 rfl⟩

/-- Counterexample to C5 as stated: `delivered` is not terminal (it still has outgoing
transitions and is outside {completed, cancelled, refunded}), yet the customer cancel
route rejects it — the route's whitelist stops at `assigning`. -/
theorem cancel_delivered_rejected_counterexample :
    cancelOrder 4 7 none 0 deliveredState = (.notCancellable, deliveredState)
    ∧ validTransitions .delivered ≠ []
    ∧ Status.delivered ∉ [Status.completed, Status.cancelled, Status.refunded] :=
  ⟨rfl, by decide, by decide⟩

/-- C2: two creation requests with the same idempotency key resolve to the same order
id with at-most-once side effects: (a) a request whose key already names an existing
order returns that order's id and status with the state untouched (no reservation,
no insert); (b) if a first request with key `k` created order `i`, a second request
with the same key returns the same id `i` and the same status, and leaves the state
exactly as it was after the first request. -/
theorem create_order_idempotent (req : CreateOrderRequest) (fk fk2 : String)
    (oid oid2 : Nat) (st st1 : AppState) (k : String) (ex : Order) (i : Nat)
    (s : Status) :
    (req.items.isEmpty = false →
      st.orders.find?
        (fun o => o.idempotencyKey == jsOrKey req.idempotencyKey fk) = some ex →
      createOrder req fk oid st = (.okExisting ex.id ex.status, st))
    ∧ (req.idempotencyKey = some k → k ≠ "" →
      createOrder req fk oid st = (.created i s, st1) →
      createOrder req fk2 oid2 st1 = (.okExisting i s, st1)) := by
  constructor
  · intro hne hex
    exact createOrder_existing_eq req fk oid st ex hne hex
  · intro hk hkne h1
    obtain ⟨hne, hfind, hi, hs, hst1⟩ :=
      createOrder_created_inversion req fk oid st i s st1 h1
    have hkey : jsOrKey req.idempotencyKey fk = k := by
      rw [hk]; simp [jsOrKey, hkne]
    have hkey2 : jsOrKey req.idempotencyKey fk2 = k := by
      rw [hk]; simp [jsOrKey, hkne]
    have hbokey : (builtOrder req (jsOrKey req.idempotencyKey fk) oid
        (fetchedProducts req st)).idempotencyKey = k := by
      simp [builtOrder, hkey]
    have hexfind : st1.orders.find?
        (fun o => o.idempotencyKey == jsOrKey req.idempotencyKey fk2) =
        some (builtOrder req (jsOrKey req.idempotencyKey fk) oid
          (fetchedProducts req st)) := by
      rw [hst1]
      dsimp only
      rw [List.find?_append]
      simp only [hkey2]
      rw [show st.orders.find? (fun o => o.idempotencyKey == k) = none from by
        rw [← hkey]; exact hfind]
      simp [List.find?, hbokey]
    have h2 := createOrder_existing_eq req fk2 oid2 st1
      (builtOrder req (jsOrKey req.idempotencyKey fk) oid
        (fetchedProducts req st)) hne hexfind
    rw [h2, hi, hs]
    rfl

/-- Concrete instantiation of the idempotency theorem: after creating order 10 with
key "K1" in `shopState`, replaying the request (with a different fresh key and a
different candidate row id) returns order 10 with its status and leaves the state
untouched; likewise the existing-key branch answers from the stored row. -/
theorem create_order_idempotent_witness :
    (createOrder createReq "fresh3" 12 (createOrder createReq "fresh" 10 shopState).2 =
      (.okExisting
        (builtOrder createReq "K1" 10 (fetchedProducts createReq shopState)).id
        (builtOrder createReq "K1" 10 (fetchedProducts createReq shopState)).status,
        (createOrder createReq "fresh" 10 shopState).2))
    ∧ (createOrder createReq "fresh2" 11 (createOrder createReq "fresh" 10 shopState).2 =
      (.okExisting 10 .confirmed, (createOrder createReq "fresh" 10 shopState).2)) :=
  ⟨(create_order_idempotent createReq "fresh3" "fresh" 12 11
      (createOrder createReq "fresh" 10 shopState).2
      (createOrder createReq "fresh" 10 shopState).2 "K1"
      (builtOrder createReq "K1" 10 (fetchedProducts createReq shopState))
      10 .confirmed).1 rfl rfl,
   (create_order_idempotent createReq "fresh" "fresh2" 10 11 shopState
      (createOrder createReq "fresh" 10 shopState).2 "K1" sampleOrder
      10 .confirmed).2 rfl (by decide) rfl⟩

/-- C4 (amended): for an order created from items that carry no spurious `quantity`
field (the documented request shape), cancellation releases exactly the quantities
reserved at creation — the product list returns to exactly its pre-creation value —
and cancelling the same order a second time is rejected.  (The cancel route releases
`item.quantity || item.qty` per line, so a crafted item with a non-zero `quantity`
field releases a different amount than was reserved; see the counterexample.) -/
theorem create_cancel_roundtrip (req : CreateOrderRequest) (fk : String) (oid : Nat)
    (st st1 : AppState) (i : Nat) (s : Status) (userId : Nat)
    (reason reason2 : Option String) (now now2 : Nat)
    (hq : ∀ it ∈ req.items, it.quantity = none)
    (h1 : createOrder req fk oid st = (.created i s, st1))
    (hnotold : st.orders.find? (fun q => q.id == i) = none)
    (huser : req.userId = userId) :
    ∃ st2, cancelOrder i userId reason now st1 = (.ok, st2)
      ∧ st2.products = st.products
      ∧ cancelOrder i userId reason2 now2 st2 = (.notCancellable, st2) := by
  obtain ⟨hne, hfind, hi, hs, hst1⟩ :=
    createOrder_created_inversion req fk oid st i s st1 h1
  subst hi
  set bo := builtOrder req (jsOrKey req.idempotencyKey fk) i
    (fetchedProducts req st) with hbo
  have hofind : st1.orders.find? (fun q => q.id == i) = some bo := by
    rw [hst1]
    dsimp only
    rw [List.find?_append, hnotold]
    simp [List.find?, hbo, builtOrder]
  have hbu : bo.userId = userId := huser
  have hcanc : cancellableStatuses.contains bo.status = true := by
    rw [hbo]
    show cancellableStatuses.contains
      (if req.paymentMethod = .cash then Status.confirmed
       else Status.payment_pending) = true
    split <;> rfl
  have hcancel := cancelOrder_ok_eq i userId reason now st1 bo hofind hbu hcanc
  refine ⟨_, hcancel, ?_, ?_⟩
  · show req.items.foldl releaseStep st1.products = st.products
    rw [hst1]
    show req.items.foldl releaseStep
      (req.items.foldl reserveStep st.products) = st.products
    rw [foldl_reserveStep req.items st.products,
      foldl_releaseStep req.items, List.map_map]
    have hrel : ∀ it ∈ req.items, releaseAmount it = it.qty := by
      intro it hmem
      simp [releaseAmount, hq it hmem]
    have hpt : st.products.map (elemRelease req.items ∘ elemBump req.items) =
        st.products.map id :=
      List.map_congr_left (fun p _ => rel_bump_cancel req.items p hrel)
    rw [hpt, List.map_id]
  · have ho2 := find?_map_modify Order.id (fun _ => cancelledVersion bo reason now)
      st1.orders i bo hofind rfl
    exact cancelOrder_reject_eq i userId reason2 now2 _
      (cancelledVersion bo reason now)
      (by simpa [show bo.id = i from rfl] using ho2) huser rfl

/-- Concrete instantiation of the roundtrip theorem on the specification's scenario:
stock 5, reserved 0, order 2 units — available drops from 5 to 3, cancelling restores
the product list (so available is 5 again), and a second cancel is rejected. -/
theorem create_cancel_roundtrip_witness :
    (∃ st2, cancelOrder 10 7 none 5 (createOrder createReq "fresh" 10 scenarioState).2 =
        (.ok, st2)
      ∧ st2.products = scenarioState.products
      ∧ cancelOrder 10 7 none 6 st2 = (.notCancellable, st2))
    ∧ ((createOrder createReq "fresh" 10 scenarioState).2.products.map
        Product.getAvailableQuantity) = [3]
    ∧ (scenarioState.products.map Product.getAvailableQuantity) = [5] :=
  ⟨create_cancel_roundtrip createReq "fresh" 10 scenarioState
      (createOrder createReq "fresh" 10 scenarioState).2 10 .confirmed 7
      none none 5 6 (by decide) rfl rfl rfl,
   rfl, rfl⟩

/-- Counterexample to C4 as stated: with a crafted item `{ productId: 1, qty: 2,
quantity: 7 }` against a product with stock 10 and 3 units reserved by others,
creation reserves 2 (3 → 5), but cancellation releases `item.quantity || item.qty`
= 7, so the counter is floored to 0 instead of returning to 3 — strictly more than
the 2 reserved at creation is released. -/
theorem cancel_release_exact_counterexample :
    ((createOrder sneakyReq "f" 20 sneakyState).2.products.map
        Product.reservedQuantity) = [5]
    ∧ (sneakyState.products.map Product.reservedQuantity) = [3]
    ∧ (cancelOrder 20 7 none 5 (createOrder sneakyReq "f" 20 sneakyState).2).1 =
        CancelResult.ok
    ∧ ((cancelOrder 20 7 none 5 (createOrder sneakyReq "f" 20 sneakyState).2).2.products.map
        Product.reservedQuantity) = [0]
    ∧ (0 : Nat) ≠ 3 :=
  ⟨rfl, rfl, rfl, rfl, by decide⟩

/-- Reservation bumps never change a product's id. -/
theorem bump1_id (it : Item) (p : Product) : (bump1 it p).id = p.id := by
  unfold bump1
  split <;> rfl

/-- find? by product id looks through one reservation step. -/
theorem find?_reserveStep (ps : List Product) (it : Item) (pid : Nat) :
    (reserveStep ps it).find? (fun q => q.id == pid) =
      (ps.find? (fun q => q.id == pid)).map (bump1 it) := by
  unfold reserveStep
  rw [List.find?_map]
  have hpred : ((fun q : Product => q.id == pid) ∘ bump1 it) =
      (fun q : Product => q.id == pid) := by
    funext q
    simp [Function.comp, bump1_id]
  rw [hpred]

/-- A fold of reservation steps over lines with other product ids leaves the find?
result for `pid` untouched. -/
theorem find?_foldl_reserveStep_other (pid : Nat) (items : List Item) :
    (∀ it ∈ items, it.productId ≠ pid) →
    ∀ ps : List Product,
      (items.foldl reserveStep ps).find? (fun q => q.id == pid) =
        ps.find? (fun q => q.id == pid) := by
  induction items with
  | nil => intro _ ps; rfl
  | cons it rest ih =>
    intro hni ps
    show (rest.foldl reserveStep (reserveStep ps it)).find? _ = _
    rw [ih (fun it' h' => hni it' (List.mem_cons_of_mem it h')) (reserveStep ps it)]
    rw [find?_reserveStep]
    cases hf : ps.find? (fun q => q.id == pid) with
    | none => rfl
    | some q =>
      have hqid : q.id = pid := by
        simpa using @List.find?_some _ (fun q => q.id == pid) q ps hf
      have hneq : ¬((q.id == it.productId) = true) := by
        simp only [hqid, beq_iff_eq]
        exact fun h => hni it (List.mem_cons_self it rest) h.symm
      have hno : bump1 it q = q := by
        unfold bump1
        rw [if_neg hneq]
      simp [hno]

/-- The `products.length !== items.length` gate (line 1994): when it passes and the
product table has unique ids, every requested line's product id is distinct and is
found in the fetched list. -/
theorem fetched_covers (req : CreateOrderRequest) (st : AppState)
    (hnodup : (st.products.map Product.id).Nodup)
    (hlen : (fetchedProducts req st).length = req.items.length) :
    (req.items.map Item.productId).Nodup
    ∧ ∀ it ∈ req.items, ∃ p, (fetchedProducts req st).find?
        (fun q => q.id == it.productId) = some p := by
  have hsubl : List.Sublist (fetchedProducts req st) st.products :=
    List.filter_sublist st.products
  have hFnodup : ((fetchedProducts req st).map Product.id).Nodup :=
    List.Nodup.sublist (List.Sublist.map Product.id hsubl) hnodup
  have hFsub : ∀ x ∈ (fetchedProducts req st).map Product.id,
      x ∈ req.items.map Item.productId := by
    intro x hx
    obtain ⟨p, hp, hpid⟩ := List.mem_map.mp hx
    have hpred := (List.mem_filter.mp hp).2
    simp only [Bool.and_eq_true] at hpred
    obtain ⟨it, hit, hiteq⟩ := List.any_eq_true.mp hpred.1.1
    rw [List.mem_map]
    refine ⟨it, hit, ?_⟩
    have : it.productId = p.id := by simpa using hiteq
    rw [this, hpid]
  have hsubperm := List.subperm_of_subset hFnodup hFsub
  have hlenF : (req.items.map Item.productId).length ≤
      ((fetchedProducts req st).map Product.id).length := by
    rw [List.length_map, List.length_map, hlen]
  have hperm := hsubperm.perm_of_length_le hlenF
  constructor
  · exact hperm.nodup_iff.mp hFnodup
  · intro it hit
    have hxin : it.productId ∈ (fetchedProducts req st).map Product.id := by
      rw [hperm.mem_iff]
      exact List.mem_map.mpr ⟨it, hit, rfl⟩
    obtain ⟨p, hp, hpid⟩ := List.mem_map.mp hxin
    exact Option.isSome_iff_exists.mp
      (List.find?_isSome.mpr ⟨p, hp, by simp [hpid]⟩)

/-- With unique product ids, a product found in the fetched sublist is the one find?
locates in the whole table. -/
theorem fetched_find_in_products (req : CreateOrderRequest) (st : AppState)
    (hnodup : (st.products.map Product.id).Nodup) (pid : Nat) (p : Product)
    (hf : (fetchedProducts req st).find? (fun q => q.id == pid) = some p) :
    st.products.find? (fun q => q.id == pid) = some p := by
  have hmemf : p ∈ fetchedProducts req st := List.mem_of_find?_eq_some hf
  have hmem : p ∈ st.products := (List.filter_sublist st.products).subset hmemf
  have hpid : (p.id == pid) = true :=
    @List.find?_some _ (fun q => q.id == pid) p (fetchedProducts req st) hf
  obtain ⟨q, hq⟩ : ∃ q, st.products.find? (fun q => q.id == pid) = some q :=
    Option.isSome_iff_exists.mp (List.find?_isSome.mpr ⟨p, hmem, hpid⟩)
  have hqmem : q ∈ st.products := List.mem_of_find?_eq_some hq
  have hqid : (q.id == pid) = true :=
    @List.find?_some _ (fun q => q.id == pid) q st.products hq
  have hpq : p = q := by
    refine List.inj_on_of_nodup_map hnodup hmem hqmem ?_
    have h1 : p.id = pid := by simpa using hpid
    have h2 : q.id = pid := by simpa using hqid
    rw [h1, h2]
  rw [hq, hpq]

/-- When the lines have distinct product ids and every line's product can satisfy its
quantity, the apply loop runs to completion (`product.reserve` never throws) and
produces exactly the per-item fold of reservation bumps. -/
theorem applyReservations_complete (items : List Item) :
    ∀ ps : List Product,
    (items.map Item.productId).Nodup →
    (∀ it ∈ items, ∃ p, ps.find? (fun q => q.id == it.productId) = some p ∧
        p.canReserve it.qty = true) →
    applyReservations items ps = (items.foldl reserveStep ps, true) := by
  induction items with
  | nil => intro ps _ _; rfl
  | cons it rest ih =>
    intro ps hnd hG
    obtain ⟨p, hp, hc⟩ := hG it (List.mem_cons_self it rest)
    have hne : it.productId ∉ rest.map Item.productId := by
      have := hnd
      rw [List.map_cons, List.nodup_cons] at this
      exact this.1
    unfold applyReservations
    simp only [hp]
    rw [if_pos hc]
    have hndrest : (rest.map Item.productId).Nodup := by
      have := hnd
      rw [List.map_cons, List.nodup_cons] at this
      exact this.2
    have hGrest : ∀ it' ∈ rest, ∃ p',
        (reserveStep ps it).find? (fun q => q.id == it'.productId) = some p' ∧
        p'.canReserve it'.qty = true := by
      intro it' hit'
      obtain ⟨p', hp', hc'⟩ := hG it' (List.mem_cons_of_mem it hit')
      have hid' : p'.id = it'.productId := by
        simpa using
          @List.find?_some _ (fun q => q.id == it'.productId) p' ps hp'
      have hdiff : it'.productId ≠ it.productId := by
        intro hcontra
        exact hne (hcontra ▸ List.mem_map.mpr ⟨it', hit', rfl⟩)
      have hno : bump1 it p' = p' := by
        unfold bump1
        rw [if_neg]
        simp only [hid', beq_iff_eq]
        exact hdiff
      refine ⟨p', ?_, hc'⟩
      rw [find?_reserveStep, hp']
      simp [hno]
    exact ih (reserveStep ps it) hndrest hGrest

/-- Per requested line, the completed apply loop raises exactly that line's product
reservation by the line's quantity. -/
theorem foldl_reserveStep_line (items : List Item) :
    ∀ ps : List Product, (items.map Item.productId).Nodup →
    ∀ it ∈ items, ∀ p : Product,
      ps.find? (fun q => q.id == it.productId) = some p →
      (items.foldl reserveStep ps).find? (fun q => q.id == it.productId) =
        some { p with reservedQuantity := p.reservedQuantity + it.qty } := by
  induction items with
  | nil => intro ps _ it hit; simp at hit
  | cons ithead rest ih =>
    intro ps hnd it hit p hp
    have hne : ithead.productId ∉ rest.map Item.productId := by
      have := hnd
      rw [List.map_cons, List.nodup_cons] at this
      exact this.1
    have hndrest : (rest.map Item.productId).Nodup := by
      have := hnd
      rw [List.map_cons, List.nodup_cons] at this
      exact this.2
    rcases List.mem_cons.mp hit with heq | hmem
    · subst heq
      show (rest.foldl reserveStep (reserveStep ps it)).find? _ = _
      rw [find?_foldl_reserveStep_other it.productId rest
        (fun it' hit' hcontra => hne (hcontra ▸ List.mem_map.mpr ⟨it', hit', rfl⟩))
        (reserveStep ps it)]
      rw [find?_reserveStep, hp]
      have hpid : (p.id == it.productId) = true :=
        @List.find?_some _ (fun q => q.id == it.productId) p ps hp
      have hb : bump1 it p =
          { p with reservedQuantity := p.reservedQuantity + it.qty } := by
        unfold bump1
        rw [if_pos hpid]
      simp [hb]
    · show (rest.foldl reserveStep (reserveStep ps ithead)).find? _ = _
      have hdiff : it.productId ≠ ithead.productId := by
        intro hcontra
        exact hne (hcontra ▸ List.mem_map.mpr ⟨it, hmem, rfl⟩)
      have hid : p.id = it.productId := by
        simpa using @List.find?_some _ (fun q => q.id == it.productId) p ps hp
      have hno : bump1 ithead p = p := by
        unfold bump1
        rw [if_neg]
        simp only [hid, beq_iff_eq]
        exact hdiff
      refine ih (reserveStep ps ithead) hndrest it hmem p ?_
      rw [find?_reserveStep, hp]
      simp [hno]

/-- The insufficient-stock rejection of the create route: first failing item reported,
state untouched. -/
theorem createOrder_insufficient_eq (req : CreateOrderRequest) (fk : String)
    (oid : Nat) (st : AppState) (store : Store) (itf : Item)
    (hne : req.items.isEmpty = false)
    (hkey : st.orders.find?
      (fun o => o.idempotencyKey == jsOrKey req.idempotencyKey fk) = none)
    (hstore : st.stores.find? (fun s0 => s0.id == req.storeId) = some store)
    (hopen : store.status = "open")
    (hlen : (fetchedProducts req st).length = req.items.length)
    (hff : firstFailingItem (fetchedProducts req st) req.items = some itf) :
    createOrder req fk oid st = (.insufficientStock itf.productId, st) := by
  simp only [createOrder, hne, Bool.false_eq_true, if_false, hkey, hstore]
  rw [if_neg (by simp [hopen]), if_neg (by simp [hlen])]
  simp only [hff]

/-- The successful completion of the create route after all gates pass. -/
theorem createOrder_success_eq (req : CreateOrderRequest) (fk : String)
    (oid : Nat) (st : AppState) (store : Store) (ps : List Product)
    (hne : req.items.isEmpty = false)
    (hkey : st.orders.find?
      (fun o => o.idempotencyKey == jsOrKey req.idempotencyKey fk) = none)
    (hstore : st.stores.find? (fun s0 => s0.id == req.storeId) = some store)
    (hopen : store.status = "open")
    (hlen : (fetchedProducts req st).length = req.items.length)
    (hff : firstFailingItem (fetchedProducts req st) req.items = none)
    (happ : applyReservations req.items st.products = (ps, true)) :
    createOrder req fk oid st =
      (.created oid (builtOrder req (jsOrKey req.idempotencyKey fk) oid
          (fetchedProducts req st)).status,
        { st with
          products := ps,
          orders := st.orders ++ [builtOrder req (jsOrKey req.idempotencyKey fk)
            oid (fetchedProducts req st)] }) := by
  simp only [createOrder, hne, Bool.false_eq_true, if_false, hkey, hstore]
  rw [if_neg (by simp [hopen]), if_neg (by simp [hlen])]
  simp only [hff, happ]
  rfl

/-- C10: with the request gates passed (non-empty items, fresh key, open store,
product-availability length check) and unique product ids, stock reservation is
all-or-nothing: if some requested line's product has available < requested, the route
answers insufficient-stock naming a failing requested line's product and the state is
completely unchanged (no reservation retained, no order row); if every line has
available >= requested, the route creates the order and every line's reservation is
applied — each line's product ends with its reservation counter raised by exactly
that line's quantity. -/
theorem reservation_all_or_nothing (req : CreateOrderRequest) (fk : String)
    (oid : Nat) (st : AppState) (store : Store)
    (hne : req.items.isEmpty = false)
    (hkey : st.orders.find?
      (fun o => o.idempotencyKey == jsOrKey req.idempotencyKey fk) = none)
    (hstore : st.stores.find? (fun s0 => s0.id == req.storeId) = some store)
    (hopen : store.status = "open")
    (hlen : (fetchedProducts req st).length = req.items.length)
    (hnodup : (st.products.map Product.id).Nodup) :
    ((∃ it ∈ req.items, ∃ p, (fetchedProducts req st).find?
        (fun q => q.id == it.productId) = some p ∧
        p.quantity - p.reservedQuantity < it.qty) →
      ∃ itf ∈ req.items, ∃ pf, (fetchedProducts req st).find?
          (fun q => q.id == itf.productId) = some pf
        ∧ pf.quantity - pf.reservedQuantity < itf.qty
        ∧ createOrder req fk oid st = (.insufficientStock itf.productId, st))
    ∧ ((∀ it ∈ req.items, ∃ p, (fetchedProducts req st).find?
        (fun q => q.id == it.productId) = some p ∧
        it.qty ≤ p.quantity - p.reservedQuantity) →
      ∃ st1, createOrder req fk oid st =
          (.created oid (builtOrder req (jsOrKey req.idempotencyKey fk) oid
            (fetchedProducts req st)).status, st1)
        ∧ st1.orders = st.orders ++ [builtOrder req (jsOrKey req.idempotencyKey fk)
            oid (fetchedProducts req st)]
        ∧ ∀ it ∈ req.items, ∃ p,
            st.products.find? (fun q => q.id == it.productId) = some p
            ∧ st1.products.find? (fun q => q.id == it.productId) =
                some { p with reservedQuantity := p.reservedQuantity + it.qty }) := by
  obtain ⟨hnd, hcov⟩ := fetched_covers req st hnodup hlen
  constructor
  · rintro ⟨it0, hit0, p0, hp0, hlt⟩
    have hchk0 : checkItem (fetchedProducts req st) it0 = false := by
      simp only [checkItem, hp0]
      simp [Product.canReserve, Product.getAvailableQuantity]
      omega
    have hsome : ∃ itf,
        firstFailingItem (fetchedProducts req st) req.items = some itf := by
      unfold firstFailingItem
      cases hfval : req.items.find?
          (fun it => ! checkItem (fetchedProducts req st) it) with
      | some itf => exact ⟨itf, rfl⟩
      | none =>
        exfalso
        have := List.find?_eq_none.mp hfval it0 hit0
        simp [hchk0] at this
    obtain ⟨itf, hff⟩ := hsome
    have hmemf : itf ∈ req.items := List.mem_of_find?_eq_some hff
    have hbadf : (! checkItem (fetchedProducts req st) itf) = true :=
      @List.find?_some _ _ itf req.items hff
    obtain ⟨pf, hpf⟩ := hcov itf hmemf
    have hltf : pf.quantity - pf.reservedQuantity < itf.qty := by
      have hchkf : checkItem (fetchedProducts req st) itf = false := by
        simpa using hbadf
      simp only [checkItem, hpf] at hchkf
      simp [Product.canReserve, Product.getAvailableQuantity] at hchkf
      omega
    exact ⟨itf, hmemf, pf, hpf, hltf,
      createOrder_insufficient_eq req fk oid st store itf hne hkey hstore hopen
        hlen hff⟩
  · intro hall
    have hff : firstFailingItem (fetchedProducts req st) req.items = none := by
      unfold firstFailingItem
      rw [List.find?_eq_none]
      intro it hit
      obtain ⟨p, hp, hle⟩ := hall it hit
      have hchk : checkItem (fetchedProducts req st) it = true := by
        simp only [checkItem, hp]
        simp [Product.canReserve, Product.getAvailableQuantity]
        omega
      simp [hchk]
    have hGst : ∀ it ∈ req.items, ∃ p,
        st.products.find? (fun q => q.id == it.productId) = some p ∧
        p.canReserve it.qty = true := by
      intro it hit
      obtain ⟨p, hp, hle⟩ := hall it hit
      refine ⟨p, fetched_find_in_products req st hnodup it.productId p hp, ?_⟩
      simp [Product.canReserve, Product.getAvailableQuantity]
      omega
    have happ := applyReservations_complete req.items st.products hnd hGst
    refine ⟨_, createOrder_success_eq req fk oid st store _ hne hkey hstore hopen
      hlen hff happ, rfl, ?_⟩
    intro it hit
    obtain ⟨p, hpst, _⟩ := hGst it hit
    exact ⟨p, hpst, foldl_reserveStep_line req.items st.products hnd it hit p hpst⟩

/-- Concrete instantiation of the all-or-nothing theorem: requesting 2 units against a
stock of 1 is rejected with the product named and the state unchanged; against a stock
of 5 with 1 reserved, creation succeeds and raises the reservation by exactly 2. -/
theorem reservation_all_or_nothing_witness :
    (∃ itf ∈ createReq.items, ∃ pf, (fetchedProducts createReq shortState).find?
          (fun q => q.id == itf.productId) = some pf
        ∧ pf.quantity - pf.reservedQuantity < itf.qty
        ∧ createOrder createReq "f2" 30 shortState =
            (.insufficientStock itf.productId, shortState))
    ∧ (∃ st1, createOrder createReq "f3" 31 shopState =
          (.created 31 (builtOrder createReq
            (jsOrKey createReq.idempotencyKey "f3") 31
            (fetchedProducts createReq shopState)).status, st1)
        ∧ st1.orders = shopState.orders ++ [builtOrder createReq
            (jsOrKey createReq.idempotencyKey "f3") 31
            (fetchedProducts createReq shopState)]
        ∧ ∀ it ∈ createReq.items, ∃ p,
            shopState.products.find? (fun q => q.id == it.productId) = some p
            ∧ st1.products.find? (fun q => q.id == it.productId) =
                some { p with reservedQuantity := p.reservedQuantity + it.qty }) :=
  ⟨(reservation_all_or_nothing createReq "f2" 30 shortState openStore
      rfl rfl rfl rfl rfl (by decide)).1
    ⟨{ productId := 1, qty := 2 }, by decide, shortProduct, rfl, by decide⟩,
   (reservation_all_or_nothing createReq "f3" 31 shopState openStore
      rfl rfl rfl rfl rfl (by decide)).2
    (by
      intro it hit
      have hit' : it = ({ productId := 1, qty := 2 } : Item) := by
        simpa [createReq] using hit
      subst hit'
      exact ⟨sampleProduct, rfl, by decide⟩)⟩

end Bozorli
